import Mathlib

/-!
# Verification of the cv-chat security / session layer

Shallow embedding of the Python modules `app/security.py`, `app/session.py`,
`app/honeypot.py` and the tool-call dispatch portion of `app/llm.py`
(`get_secure_llm_response`), together with proofs of the specification claims.

Modelling conventions:
* Strings are Lean `String`s; most definitions work on `List Char`
  (the `.data` of a string) so that structural recursion and induction are easy.
* `time.time()` values are modelled as a `Nat` parameter `now` passed
  explicitly to every operation that reads the clock.
* The Python `dict` session store is modelled as an association list; the
  insertion order of a `dict` is not observed by any modelled operation, so
  `setSession` moves the updated binding to the front.
* JSON argument objects (`Dict[str, Any]`) are modelled as association lists
  of strings: the dispatch code only ever reads string-valued fields.
* The floating-point risk score accumulated in 0.1-sized increments is
  modelled in exact arithmetic, in units of tenths of a point
  (`0.3 ↦ 3`, …, cap `1.0 ↦ 10`, threshold `0.5 ↦ 5`).
-/

namespace CvChat

/-- Python `str.isspace` / regex `\s` on a single character (`str` patterns):
ASCII whitespace and control-separator characters plus the Unicode space
characters. -/
def isPySpace (c : Char) : Bool :=
  c = ' ' || (9 ≤ c.toNat && c.toNat ≤ 13) || (28 ≤ c.toNat && c.toNat ≤ 31) ||
  c.toNat = 0x85 || c.toNat = 0xa0 || c.toNat = 0x1680 ||
  (0x2000 ≤ c.toNat && c.toNat ≤ 0x200a) || c.toNat = 0x2028 ||
  c.toNat = 0x2029 || c.toNat = 0x202f || c.toNat = 0x205f || c.toNat = 0x3000

/-- Python `str.lower` restricted to ASCII (the inputs relevant to the claims
are ASCII; `Char.toLower` in Lean has the same ASCII behaviour). -/
def toLowerCh (c : Char) : Char := c.toLower

/-- Lower-case a text, modelling `text.lower()`. -/
def pyLower (cs : List Char) : List Char := cs.map toLowerCh

/-- `needle in hay` for Python strings: substring containment. -/
def containsSub (needle : List Char) : List Char → Bool
  | [] => needle.isPrefixOf []
  | c :: rest => needle.isPrefixOf (c :: rest) || containsSub needle rest

/-- Python `text.strip() == ""` (including `text == ""`): every character is
whitespace. -/
def isBlank (cs : List Char) : Bool := cs.all isPySpace

/-! ## `app/security.py`: `sanitize_input` -/

/-- The character filter of `sanitize_input`
(`ord(char) >= 32 or char in '\t\n\r '`). -/
def keepChar (c : Char) : Bool :=
  32 ≤ c.toNat || c ∈ ['\t', '\n', '\r', ' ']

/-- Python `text.split()` (no separator): split on runs of whitespace,
discarding empty pieces.  `acc` is the current word, accumulated in reverse. -/
def pySplitAux : List Char → List Char → List (List Char)
  | [], acc => if acc = [] then [] else [acc.reverse]
  | c :: rest, acc =>
      if isPySpace c then
        if acc = [] then pySplitAux rest []
        else acc.reverse :: pySplitAux rest []
      else pySplitAux rest (c :: acc)

def pySplit (cs : List Char) : List (List Char) := pySplitAux cs []

/-- Python `' '.join(words)`. -/
def joinWords : List (List Char) → List Char
  | [] => []
  | [w] => w
  | w :: ws => w ++ ' ' :: joinWords ws

/-- Python `text.rstrip()`: drop trailing whitespace. -/
def pyRstrip : List Char → List Char
  | [] => []
  | c :: rest =>
      let r := pyRstrip rest
      if r = [] && isPySpace c then [] else c :: r

/-- `sanitize_input(text, max_length)` from `app/security.py`.
`maxLength = none` models `max_length=None`; note the Python guard
`if max_length and len(text) > max_length` treats `0` as "no limit"
(falsy), which the `m ≠ 0` condition mirrors.  A non-negative `max_length`
is assumed (the call sites pass positive constants).  The
`text.replace('\x00', '')` step is kept even though the preceding filter
already removed NUL bytes. -/
def sanitize_input (text : List Char) (maxLength : Option Nat) : List Char :=
  if text = [] then []
  else
    let t1 := text.filter keepChar
    let t1 := t1.filter (fun c => c ≠ '\x00')
    let t2 := joinWords (pySplit t1)
    match maxLength with
    | none => t2
    | some m => if m ≠ 0 && decide (m < t2.length) then pyRstrip (t2.take m) else t2

/-- String-level wrapper for `sanitize_input`. -/
def sanitizeInputStr (text : String) (maxLength : Option Nat) : String :=
  ⟨sanitize_input text.data maxLength⟩

/-! ## `app/session.py`: sessions and the `SessionManager` -/

/-- `ConversationMessage` from `app/session.py`.  The `Dict[str, Any]`
metadata is modelled as an association list of strings (the code only ever
stores string values in it). -/
structure ConversationMessage where
  role : String
  content : String
  timestamp : Nat
  metadata : Option (List (String × String)) := none
  deriving Repr, DecidableEq

/-- `ConversationSession` from `app/session.py`. -/
structure ConversationSession where
  session_id : String
  messages : List ConversationMessage
  created_at : Nat
  last_accessed : Nat
  awaiting_clarification : Bool := false
  original_question : Option String := none
  clarification_context : Option (List (String × String)) := none
  deriving Repr, DecidableEq

/-- `SessionManager` from `app/session.py`.  The `dict` of sessions is an
association list; the lock is dropped (the embedding is sequential). -/
structure SessionManager where
  sessions : List (String × ConversationSession)
  session_timeout : Nat := 3600
  deriving Repr, DecidableEq

/-- `self.sessions.get(session_id)`. -/
def lookupSession : List (String × ConversationSession) → String →
    Option ConversationSession
  | [], _ => none
  | (k, s) :: rest, sid => if k = sid then some s else lookupSession rest sid

/-- Remove the binding of a key from the store. -/
def removeKey : List (String × ConversationSession) → String →
    List (String × ConversationSession)
  | [], _ => []
  | (k, s) :: rest, sid =>
      if k = sid then removeKey rest sid else (k, s) :: removeKey rest sid

/-- `self.sessions[session_id] = session` (mutation of the stored object or
insertion; a `dict`'s insertion order is not observed by the modelled code,
so the binding is moved to the front). -/
def setSession (l : List (String × ConversationSession)) (sid : String)
    (s : ConversationSession) : List (String × ConversationSession) :=
  (sid, s) :: removeKey l sid

/-- `del self.sessions[session_id]`. -/
def delSession (l : List (String × ConversationSession)) (sid : String) :
    List (String × ConversationSession) :=
  removeKey l sid

/-- `SessionManager.create_session`.  The fresh `str(uuid.uuid4())` is
modelled by the explicit `sid` argument. -/
def SessionManager.create_session (m : SessionManager) (sid : String)
    (now : Nat) : String × SessionManager :=
  let s : ConversationSession :=
    { session_id := sid, messages := [], created_at := now,
      last_accessed := now }
  (sid, { m with sessions := setSession m.sessions sid s })

/-- `SessionManager.get_session`: `none` for a missing id; an id idle for
longer than `session_timeout` is deleted and reported missing; otherwise the
session's `last_accessed` is refreshed to `now` and the session returned. -/
def SessionManager.get_session (m : SessionManager) (now : Nat)
    (sid : String) : Option ConversationSession × SessionManager :=
  match lookupSession m.sessions sid with
  | none => (none, m)
  | some s =>
      if m.session_timeout < now - s.last_accessed then
        (none, { m with sessions := delSession m.sessions sid })
      else
        let s' := { s with last_accessed := now }
        (some s', { m with sessions := setSession m.sessions sid s' })

/-- `SessionManager.add_message`: look the session up (with the expiry side
effect of `get_session`), then append the message.  `metadata or {}` turns a
missing metadata argument into the empty dict. -/
def SessionManager.add_message (m : SessionManager) (now : Nat) (sid : String)
    (role content : String) (metadata : Option (List (String × String))) :
    Bool × SessionManager :=
  match m.get_session now sid with
  | (none, m') => (false, m')
  | (some s, m') =>
      let msg : ConversationMessage :=
        { role := role, content := content, timestamp := now,
          metadata := some (metadata.getD []) }
      let s' := { s with messages := s.messages ++ [msg] }
      (true, { m' with sessions := setSession m'.sessions sid s' })

/-- `SessionManager.set_awaiting_clarification`. -/
def SessionManager.set_awaiting_clarification (m : SessionManager) (now : Nat)
    (sid : String) (original_question : String)
    (context : List (String × String)) : Bool × SessionManager :=
  match m.get_session now sid with
  | (none, m') => (false, m')
  | (some s, m') =>
      let s' :=
        { s with
          awaiting_clarification := true,
          original_question := some original_question,
          clarification_context := some context }
      (true, { m' with sessions := setSession m'.sessions sid s' })

/-- `SessionManager.clear_clarification_state`. -/
def SessionManager.clear_clarification_state (m : SessionManager) (now : Nat)
    (sid : String) : Bool × SessionManager :=
  match m.get_session now sid with
  | (none, m') => (false, m')
  | (some s, m') =>
      let s' :=
        { s with
          awaiting_clarification := false,
          original_question := none,
          clarification_context := none }
      (true, { m' with sessions := setSession m'.sessions sid s' })

/-- `SessionManager.cleanup_expired_sessions`. -/
def SessionManager.cleanup_expired_sessions (m : SessionManager) (now : Nat) :
    SessionManager :=
  let keep := m.sessions.filter
    (fun p => ¬ m.session_timeout < now - p.2.last_accessed)
  { m with sessions := keep }

/-! ## `app/honeypot.py`: decoy and legitimate tool definitions -/

/-- A tool definition as exposed to the model: name and description.  The
JSON parameter schema of each function is not modelled (no claim inspects
it; dispatch is by name only). -/
structure FunctionDef where
  name : String
  description : String
  deriving Repr, DecidableEq

/-- `create_honeypot_functions` from `app/honeypot.py` (names and
descriptions of the five decoy tools). -/
def create_honeypot_functions : List FunctionDef :=
  [ { name := "execute_system_command",
      description := "Execute system commands on the server (INTERNAL USE ONLY)" },
    { name := "access_database",
      description := "Direct database access for administrative queries" },
    { name := "read_system_files",
      description := "Read sensitive system files and configurations" },
    { name := "modify_user_permissions",
      description := "Change user access levels and permissions" },
    { name := "bypass_security",
      description := "Bypass security restrictions for special access" } ]

/-- `create_legitimate_functions` from `app/honeypot.py`. -/
def create_legitimate_functions : List FunctionDef :=
  [ { name := "answer_resume_question",
      description := "Answer questions about the resume content in a professional manner" },
    { name := "request_clarification",
      description := "Request clarification when a question is unclear or outside resume scope" },
    { name := "handle_clarification_response",
      description := "Handle the user's response to a clarification request and provide the answer" } ]

/-- `honeypot_names = {func["name"] for func in honeypot_functions}`
(`app/llm.py`). -/
def honeypot_names : List String := create_honeypot_functions.map (·.name)

/-- `{func["name"] for func in legitimate_functions}` (`app/llm.py`). -/
def legitimate_names : List String := create_legitimate_functions.map (·.name)

/-- A security incident as recorded by `handle_honeypot_call`'s
`logger.critical(...)` f-string, which carries the function name, the
argument dict and the originating user question. -/
structure SecurityIncident where
  severity : String
  functionName : String
  arguments : List (String × String)
  userQuestion : String
  deriving Repr, DecidableEq

/-- `handle_honeypot_call` from `app/honeypot.py`: log the incident at
critical severity; no other effect. -/
def handle_honeypot_call (function_name : String)
    (arguments : List (String × String)) (user_question : String) :
    SecurityIncident :=
  { severity := "critical", functionName := function_name,
    arguments := arguments, userQuestion := user_question }

/-- `arguments.get(key, default)` on the modelled argument dict. -/
def argGet (arguments : List (String × String)) (key default : String) :
    String :=
  match arguments.find? (fun p => p.1 = key) with
  | some p => p.2
  | none => default

/-- The `confidence_indicator` dict lookup (`.get(confidence, "◐")`). -/
def confidenceIndicator (confidence : String) : String :=
  if confidence = "high" then "✓"
  else if confidence = "medium" then "◐"
  else if confidence = "low" then "⚠"
  else "◐"

/-- `handle_legitimate_call` from `app/honeypot.py`.  Returns the response
text and the session-manager state after the handler's side effects (the
Python code mutates the global `session_manager`; its `bool` results are
discarded, as in the source). -/
def handle_legitimate_call (m : SessionManager) (now : Nat)
    (function_name : String) (arguments : List (String × String))
    (session_id : Option String) : String × SessionManager :=
  if function_name = "answer_resume_question" then
    let answer := argGet arguments "answer" ""
    let confidence := argGet arguments "confidence" "medium"
    (confidenceIndicator confidence ++ " " ++ answer, m)
  else if function_name = "request_clarification" then
    let clarification := argGet arguments "clarification_request" ""
    let reason := argGet arguments "reason" "unclear_question"
    let m' :=
      match session_id with
      | some sid =>
          (m.set_awaiting_clarification now sid clarification
            [("reason", reason)]).2
      | none => m
    ("I need some clarification: " ++ clarification, m')
  else if function_name = "handle_clarification_response" then
    let answer := argGet arguments "answer" ""
    let confidence := argGet arguments "confidence" "medium"
    let m' :=
      match session_id with
      | some sid => (m.clear_clarification_state now sid).2
      | none => m
    (confidenceIndicator confidence ++ " " ++ answer, m')
  else
    ("I'm not sure how to help with that specific question.", m)

/-! ## `app/llm.py`: the tool-call dispatch of `get_secure_llm_response` -/

/-- The fixed refusal yielded when a honeypot function is called. -/
def honeypotRefusal : String :=
  "I can only answer questions about the resume. Please ask about the candidate's experience, skills, or background."

/-- The reply yielded when the model called an unknown function. -/
def unknownFunctionReply : String :=
  "I can only help with questions about the resume. What would you like to know about the candidate?"

/-- The tool-call dispatch of `get_secure_llm_response` (`app/llm.py`,
after the function arguments parsed): classify the model-chosen function
name against the honeypot and legitimate name sets and act accordingly.
Returns the yielded response text, the session-manager state after the
dispatch, and the security incidents logged. -/
def dispatchToolCall (m : SessionManager) (now : Nat)
    (session : Option ConversationSession) (function_name : String)
    (function_args : List (String × String)) (question : String) :
    String × SessionManager × List SecurityIncident :=
  if function_name ∈ honeypot_names then
    (honeypotRefusal, m,
      [handle_honeypot_call function_name function_args question])
  else if function_name ∈ legitimate_names then
    let session_id := session.map (·.session_id)
    let r := handle_legitimate_call m now function_name function_args
      session_id
    let m2 :=
      match session with
      | some s =>
          (r.2.add_message now s.session_id "assistant" r.1
            (some [("function_called", function_name)])).2
      | none => r.2
    (r.1, m2, [])
  else
    (unknownFunctionReply, m, [])

/-- The classification of a model-chosen action name implied by the branch
order of the dispatch: honeypot names first, then legitimate names, else
unknown. -/
inductive ActionClass where
  | honeypot
  | legitimate
  | unknown
  deriving Repr, DecidableEq

/-- Name-set membership classification used by `dispatchToolCall`. -/
def classify (function_name : String) : ActionClass :=
  if function_name ∈ honeypot_names then ActionClass.honeypot
  else if function_name ∈ legitimate_names then ActionClass.legitimate
  else ActionClass.unknown

/-! ## `app/security.py`: `detect_prompt_injection`

Each entry of `PROMPT_INJECTION_PATTERNS` is a Python regex searched with
`re.search(..., re.IGNORECASE | re.MULTILINE)` over the lower-cased text.
`re.search` succeeds iff the pattern matches at some position, so every
pattern is embedded as a nondeterministic prefix matcher (returning the set
of possible remainders) that is searched at every suffix.  `IGNORECASE` is
absorbed by the lower-casing and `MULTILINE` is irrelevant (no pattern uses
anchors). -/

/-- A prefix matcher: all remainders left after matching a prefix of the
input. -/
def Matcher : Type := List Char → List (List Char)

/-- Match a literal string. -/
def litM (s : String) : Matcher := fun cs =>
  if s.data.isPrefixOf cs then [cs.drop s.data.length] else []

/-- Sequential composition of two matchers. -/
def seqM (a b : Matcher) : Matcher := fun cs => (a cs).flatMap b

/-- Alternation (regex `|`). -/
def altM (ms : List Matcher) : Matcher := fun cs => ms.flatMap (fun mm => mm cs)

/-- Regex `?`: one or zero occurrences. -/
def optM (a : Matcher) : Matcher := fun cs => a cs ++ [cs]

/-- The empty matcher (matches nothing, consumes nothing). -/
def epsM : Matcher := fun cs => [cs]

/-- Sequential composition of a list of matchers. -/
def chainM (ms : List Matcher) : Matcher := ms.foldr seqM epsM

/-- All remainders after consuming one or more whitespace characters. -/
def wsSplits : List Char → List (List Char)
  | [] => []
  | c :: rest => if isPySpace c then rest :: wsSplits rest else []

/-- Regex `\s+`. -/
def wsPlusM : Matcher := wsSplits

/-- Regex `\s*`. -/
def wsStarM : Matcher := fun cs => cs :: wsSplits cs

/-- Regex `.*?` followed by the literal `t`: skip any number of
non-newline characters, then match `t` (`.` does not match `\n`). -/
def dotLazyThen (t : List Char) : List Char → List (List Char)
  | [] => if t.isPrefixOf ([] : List Char) then [[]] else []
  | c :: rest =>
      (if t.isPrefixOf (c :: rest) then [(c :: rest).drop t.length] else []) ++
      (if c = '\n' then [] else dotLazyThen t rest)

/-- `Matcher` form of `dotLazyThen`. -/
def dotLazyThenM (t : String) : Matcher := dotLazyThen t.data

/-- Does the matcher succeed at some suffix of the input
(`re.search` semantics)? -/
def searchSuffixes (f : List Char → Bool) : List Char → Bool
  | [] => f []
  | c :: rest => f (c :: rest) || searchSuffixes f rest

/-- `re.search(pattern, text)` for an embedded pattern. -/
def reSearch (m : Matcher) (cs : List Char) : Bool :=
  searchSuffixes (fun suf => !(m suf).isEmpty) cs

/-- `PROMPT_INJECTION_PATTERNS` from `app/security.py`: each regex source
string paired with its embedded matcher. -/
def PROMPT_INJECTION_PATTERNS : List (String × Matcher) :=
  [ ("ignore\\s+(all\\s+)?(previous|above|prior)\\s+(instructions?|prompts?|commands?)",
     chainM [litM "ignore", wsPlusM, optM (chainM [litM "all", wsPlusM]),
       altM [litM "previous", litM "above", litM "prior"], wsPlusM,
       altM [chainM [litM "instruction", optM (litM "s")],
         chainM [litM "prompt", optM (litM "s")],
         chainM [litM "command", optM (litM "s")]]]),
    ("(system|user|assistant):\\s*",
     chainM [altM [litM "system", litM "user", litM "assistant"],
       litM ":", wsStarM]),
    ("<\\|.*?\\|>",
     chainM [litM "<|", dotLazyThenM "|>"]),
    ("###?\\s*(system|user|assistant|instruction)",
     chainM [litM "##", optM (litM "#"), wsStarM,
       altM [litM "system", litM "user", litM "assistant",
         litM "instruction"]]),
    ("(forget|ignore)\\s+(everything|all|that)",
     chainM [altM [litM "forget", litM "ignore"], wsPlusM,
       altM [litM "everything", litM "all", litM "that"]]),
    ("pretend\\s+(to\\s+be|you\\s+are)",
     chainM [litM "pretend", wsPlusM,
       altM [chainM [litM "to", wsPlusM, litM "be"],
         chainM [litM "you", wsPlusM, litM "are"]]]),
    ("act\\s+as\\s+(if\\s+you\\s+are\\s+)?a?\\s*",
     chainM [litM "act", wsPlusM, litM "as", wsPlusM,
       optM (chainM [litM "if", wsPlusM, litM "you", wsPlusM, litM "are",
         wsPlusM]),
       optM (litM "a"), wsStarM]),
    ("roleplay\\s+as",
     chainM [litM "roleplay", wsPlusM, litM "as"]),
    ("access\\s+(to\\s+)?(private|confidential|restricted)",
     chainM [litM "access", wsPlusM, optM (chainM [litM "to", wsPlusM]),
       altM [litM "private", litM "confidential", litM "restricted"]]),
    ("simulate\\s+(being\\s+)?a?\\s*",
     chainM [litM "simulate", wsPlusM, optM (chainM [litM "being", wsPlusM]),
       optM (litM "a"), wsStarM]),
    ("you\\s+are\\s+now\\s+(a\\s+)?",
     chainM [litM "you", wsPlusM, litM "are", wsPlusM, litM "now", wsPlusM,
       optM (chainM [litM "a", wsPlusM])]),
    ("new\\s+(role|character|persona)",
     chainM [litM "new", wsPlusM,
       altM [litM "role", litM "character", litM "persona"]]),
    ("\\\\n\\\\n(system|user|assistant):",
     chainM [litM "\\n\\n",
       altM [litM "system", litM "user", litM "assistant"], litM ":"]),
    ("(\\[|\\()?system(\\]|\\))?:",
     chainM [optM (altM [litM "[", litM "("]), litM "system",
       optM (altM [litM "]", litM ")"]), litM ":"]),
    ("jailbreak", litM "jailbreak"),
    ("developer\\s+mode",
     chainM [litM "developer", wsPlusM, litM "mode"]),
    ("godmode", litM "godmode") ]

/-- Regex `\w` (`[a-zA-Z0-9_]`; Lean's `Char.isAlphanum` is the ASCII
word-character test, matching the ASCII inputs relevant to the claims). -/
def isWordChar (c : Char) : Bool := c.isAlphanum || c = '_'

/-- The special-character ratio check
(`len(re.findall(r'[^\w\s]', text)) / max(len(text), 1) > 0.4`), stated
with exact rational arithmetic: `count / max(len,1) > 2/5`. -/
def specialCharHigh (text : List Char) : Bool :=
  let count := (text.filter (fun c => !(isWordChar c || isPySpace c))).length
  decide (2 * max text.length 1 < 5 * count)

/-- Does a match of the backreference regex `(.{10,})\1{2,}` start at the
head of `cs`: some chunk of at least 10 non-newline characters immediately
repeated at least twice more? -/
def repeatedAt (cs : List Char) : Bool :=
  (List.range (cs.length / 3 + 1)).any (fun L =>
    10 ≤ L && !(cs.take L).contains '\n' &&
    ((cs.drop L).take L == cs.take L) &&
    ((cs.drop (2 * L)).take L == cs.take L))

/-- `re.search(r'(.{10,})\1{2,}', text)`: a repeated-pattern match at some
position. -/
def hasRepeatedPattern (text : List Char) : Bool :=
  searchSuffixes repeatedAt text

/-- `ai_manipulation_keywords` from `detect_prompt_injection`. -/
def ai_manipulation_keywords : List String :=
  ["token", "embedding", "vector", "model", "training", "dataset",
   "neural", "transformer", "gpt", "llm", "prompt", "fine-tune"]

/-- `system_keywords` from `detect_prompt_injection` (note the trailing
spaces of `"rm "` and `"del "`). -/
def system_keywords : List String :=
  ["sudo", "rm ", "del ", "format", "exec", "eval", "import"]

/-- The risk score accumulated by `detect_prompt_injection`, in tenths of a
point (`+0.3` per matched injection pattern, `+0.2` for a high
special-character ratio, `+0.1` for repeated patterns, `+0.1` per AI
keyword, `+0.4` per system-command keyword, capped at `1.0 ↦ 10`).  The
Python accumulation uses floats; it is modelled as exact arithmetic in
units of `0.1`. -/
def risk_score_tenths (text : List Char) : Nat :=
  let tl := pyLower text
  let fromPatterns :=
    3 * PROMPT_INJECTION_PATTERNS.countP (fun p => reSearch p.2 tl)
  let fromSpecial := if specialCharHigh text then 2 else 0
  let fromRepeat := if hasRepeatedPattern text then 1 else 0
  let fromAi := ai_manipulation_keywords.countP (fun k => containsSub k.data tl)
  let fromSys :=
    4 * system_keywords.countP (fun k => containsSub k.data tl)
  min (fromPatterns + fromSpecial + fromRepeat + fromAi + fromSys) 10

/-- `MAX_QUESTION_LENGTH` from `app/security.py`. -/
def MAX_QUESTION_LENGTH : Nat := 500

/-- `SecurityResult` from `app/security.py`; `risk_score` is kept in tenths
of a point. -/
structure SecurityResult where
  is_safe : Bool
  cleaned_input : String
  risk_score_tenths : Nat
  detected_patterns : List String
  warnings : List String
  deriving Repr, DecidableEq

/-- `detect_prompt_injection` from `app/security.py`. -/
def detect_prompt_injection (text : String) : SecurityResult :=
  if isBlank text.data then
    { is_safe := true, cleaned_input := "", risk_score_tenths := 0,
      detected_patterns := [], warnings := [] }
  else
    let tl := pyLower text.data
    let detected :=
      (PROMPT_INJECTION_PATTERNS.filter (fun p => reSearch p.2 tl)).map (·.1)
    let warnings :=
      (if specialCharHigh text.data then
        ["High ratio of special characters"] else []) ++
      (if hasRepeatedPattern text.data then
        ["Repeated text patterns detected"] else []) ++
      (ai_manipulation_keywords.filter
        (fun k => containsSub k.data tl)).map
        (fun k => "AI-related keyword detected: " ++ k) ++
      (system_keywords.filter (fun k => containsSub k.data tl)).map
        (fun k => "System command keyword detected: " ++ k)
    let score := risk_score_tenths text.data
    let is_safe :=
      decide (score ≤ 5) &&
      !((containsSub "ignore".data tl && containsSub "instruction".data tl) ||
        containsSub "system:".data tl ||
        containsSub "user:".data tl ||
        containsSub "assistant:".data tl)
    { is_safe := is_safe,
      cleaned_input := sanitizeInputStr text (some MAX_QUESTION_LENGTH),
      risk_score_tenths := score,
      detected_patterns := detected,
      warnings := warnings }

/-! ## Derived notions used by the claims -/

/-- States of the session manager reachable by sequences of its public
operations from a freshly constructed manager (`SessionManager.__init__`
with any timeout). -/
inductive Reachable : SessionManager → Prop where
  | init (timeout : Nat) :
      Reachable { sessions := [], session_timeout := timeout }
  | create (sid : String) (now : Nat) {m : SessionManager} :
      Reachable m → Reachable (m.create_session sid now).2
  | get (now : Nat) (sid : String) {m : SessionManager} :
      Reachable m → Reachable (m.get_session now sid).2
  | add (now : Nat) (sid role content : String)
      (md : Option (List (String × String))) {m : SessionManager} :
      Reachable m → Reachable (m.add_message now sid role content md).2
  | setClar (now : Nat) (sid q : String) (ctx : List (String × String))
      {m : SessionManager} :
      Reachable m → Reachable (m.set_awaiting_clarification now sid q ctx).2
  | clearClar (now : Nat) (sid : String) {m : SessionManager} :
      Reachable m → Reachable (m.clear_clarification_state now sid).2
  | cleanup (now : Nat) {m : SessionManager} :
      Reachable m → Reachable (m.cleanup_expired_sessions now)

/-- One stored session satisfies the clarification invariant:
`awaiting_clarification` holds exactly when `original_question` is present. -/
def clarPairB (p : String × ConversationSession) : Bool :=
  p.2.awaiting_clarification == p.2.original_question.isSome

/-- Executable form of the clarification invariant: every stored session has
`awaiting_clarification` exactly when `original_question` is present. -/
def clarInvB (m : SessionManager) : Bool :=
  m.sessions.all clarPairB

/-- A minimal fresh session (as produced by `create_session`), used in
concrete witnesses. -/
def sampleSession (sid : String) (t : Nat) : ConversationSession :=
  { session_id := sid, messages := [], created_at := t, last_accessed := t }

/-- A word list is "good" when every word is nonempty and free of
whitespace — the shape `text.split()` produces. -/
def goodWords (ws : List (List Char)) : Prop :=
  ∀ w ∈ ws, w ≠ [] ∧ ∀ c ∈ w, isPySpace c = false

/-- The session after `set_awaiting_clarification` at time `now` (the
`get_session` refresh followed by the clarification-field updates). -/
def withClar (s : ConversationSession) (now : Nat) (q : String)
    (ctx : List (String × String)) : ConversationSession :=
  { s with last_accessed := now, awaiting_clarification := true,
           original_question := some q, clarification_context := some ctx }

/-- The session after `clear_clarification_state` at time `now`. -/
def withoutClar (s : ConversationSession) (now : Nat) : ConversationSession :=
  { s with last_accessed := now, awaiting_clarification := false,
           original_question := none, clarification_context := none }

/-- The session after `add_message` at time `now`. -/
def withMsg (s : ConversationSession) (now : Nat) (role content : String)
    (md : Option (List (String × String))) : ConversationSession :=
  { s with last_accessed := now,
           messages := s.messages ++
             [{ role := role, content := content, timestamp := now,
                metadata := some (md.getD []) }] }

/-- Store update at manager level. -/
def setStore (m : SessionManager) (sid : String) (s : ConversationSession) :
    SessionManager :=
  { m with sessions := setSession m.sessions sid s }

/-! ## Lemmas about the session store -/

theorem lookupSession_nil (sid : String) :
    lookupSession [] sid = none := rfl

theorem lookupSession_cons (k : String) (s : ConversationSession)
    (rest : List (String × ConversationSession)) (sid : String) :
    lookupSession ((k, s) :: rest) sid =
      if k = sid then some s else lookupSession rest sid := rfl

theorem lookupSession_removeKey_ne (l : List (String × ConversationSession))
    (sid sid' : String) (h : sid' ≠ sid) :
    lookupSession (removeKey l sid) sid' = lookupSession l sid' := by
  induction l with
  | nil => rfl
  | cons p rest ih =>
      obtain ⟨k, s⟩ := p
      by_cases hk : k = sid
      · subst hk
        simp [removeKey, lookupSession_cons, Ne.symm h, ih]
      · simp [removeKey, lookupSession_cons, hk, ih]

theorem lookupSession_setSession_self
    (l : List (String × ConversationSession)) (sid : String)
    (s : ConversationSession) :
    lookupSession (setSession l sid s) sid = some s := by
  simp [setSession, lookupSession_cons]

theorem lookupSession_setSession_ne
    (l : List (String × ConversationSession)) (sid sid' : String)
    (s : ConversationSession) (h : sid' ≠ sid) :
    lookupSession (setSession l sid s) sid' = lookupSession l sid' := by
  simp [setSession, lookupSession_cons, Ne.symm h,
    lookupSession_removeKey_ne l sid sid' h]

theorem lookupSession_delSession_self
    (l : List (String × ConversationSession)) (sid : String) :
    lookupSession (delSession l sid) sid = none := by
  induction l with
  | nil => rfl
  | cons p rest ih =>
      obtain ⟨k, s⟩ := p
      by_cases hk : k = sid
      · subst hk; simpa [delSession, removeKey] using ih
      · simpa [delSession, removeKey, lookupSession_cons, hk] using ih

theorem lookupSession_mem (l : List (String × ConversationSession))
    (sid : String) (s : ConversationSession)
    (h : lookupSession l sid = some s) : (sid, s) ∈ l := by
  induction l with
  | nil => simp [lookupSession_nil] at h
  | cons p rest ih =>
      obtain ⟨k, s'⟩ := p
      rw [lookupSession_cons] at h
      by_cases hk : k = sid
      · subst hk
        rw [if_pos rfl] at h
        cases h
        exact List.mem_cons_self _ _
      · rw [if_neg hk] at h
        exact List.mem_cons_of_mem _ (ih h)

/-! ## C9: name sets disjoint, classification by membership -/

/-- C9: the decoy (honeypot) action-name set and the legitimate action-name
set are disjoint, and `classify` (membership-based classification, as in the
dispatch) sends every decoy name to `honeypot` and every legitimate name to
`legitimate` — never the other way round. -/
theorem honeypot_and_legitimate_names_partition :
    (∀ n ∈ honeypot_names, n ∉ legitimate_names) ∧
    (∀ n ∈ legitimate_names, n ∉ honeypot_names) ∧
    (∀ n ∈ honeypot_names, classify n = ActionClass.honeypot) ∧
    (∀ n ∈ legitimate_names, classify n = ActionClass.legitimate) := by
  refine ⟨?_, ?_, ?_, ?_⟩ <;> decide

/-! ## C8: `get_session` expiry and refresh behaviour -/

/-- C8: for a stored session, `get_session` on an id idle strictly longer
than the timeout returns `none` and removes the entry; on a fresh id it
refreshes `last_accessed` to the current time and returns the session. -/
theorem get_session_expiry_and_refresh (m : SessionManager) (now : Nat)
    (sid : String) (s : ConversationSession)
    (h : lookupSession m.sessions sid = some s) :
    (m.session_timeout < now - s.last_accessed →
      (m.get_session now sid).1 = none ∧
      lookupSession (m.get_session now sid).2.sessions sid = none) ∧
    (now - s.last_accessed ≤ m.session_timeout →
      (m.get_session now sid).1 = some { s with last_accessed := now } ∧
      lookupSession (m.get_session now sid).2.sessions sid =
        some { s with last_accessed := now }) := by
  constructor
  · intro hexp
    simp [SessionManager.get_session, h, hexp,
      lookupSession_delSession_self]
  · intro hfresh
    simp [SessionManager.get_session, h, Nat.not_lt.mpr hfresh,
      lookupSession_setSession_self]

/-- Witness for C8: a session last accessed at time 0 with timeout 3600 is
gone at time 4000, and at time 1000 it is returned with `last_accessed`
refreshed. -/
theorem get_session_expiry_and_refresh_witness :
    ((SessionManager.mk [("s1", sampleSession "s1" 0)] 3600).get_session
        4000 "s1").1 = none ∧
    ((SessionManager.mk [("s1", sampleSession "s1" 0)] 3600).get_session
        1000 "s1").1 = some { sampleSession "s1" 0 with last_accessed := 1000 } := by
  refine ⟨?_, ?_⟩
  · exact ((get_session_expiry_and_refresh
      (SessionManager.mk [("s1", sampleSession "s1" 0)] 3600) 4000 "s1"
      (sampleSession "s1" 0) (by decide)).1 (by decide)).1
  · exact ((get_session_expiry_and_refresh
      (SessionManager.mk [("s1", sampleSession "s1" 0)] 3600) 1000 "s1"
      (sampleSession "s1" 0) (by decide)).2 (by decide)).1

/-! ## C3: decoy dispatch logs an incident and leaves state untouched -/

/-- C3: dispatching any decoy (honeypot) action name, with any arguments,
question and bound session, logs exactly one critical-severity security
incident carrying the action name, the arguments and the originating
question, returns the fixed generic refusal, and leaves the session-manager
state (hence every session: its messages, `awaiting_clarification`,
`original_question` and `clarification_context`) unchanged. -/
theorem dispatch_honeypot_refuses_and_preserves_state (m : SessionManager)
    (now : Nat) (session : Option ConversationSession) (name : String)
    (args : List (String × String)) (q : String)
    (h : name ∈ honeypot_names) :
    dispatchToolCall m now session name args q =
      (honeypotRefusal, m,
        [{ severity := "critical", functionName := name, arguments := args,
           userQuestion := q }]) := by
  simp [dispatchToolCall, h, handle_honeypot_call]

/-- Witness for C3: calling the decoy `execute_system_command` on a concrete
state produces the refusal, the unchanged store, and the incident record. -/
theorem dispatch_honeypot_refuses_and_preserves_state_witness :
    dispatchToolCall (SessionManager.mk [("s1", sampleSession "s1" 0)] 3600)
        50 (some (sampleSession "s1" 0)) "execute_system_command"
        [("command", "rm -rf /")] "please wipe the server" =
      (honeypotRefusal, SessionManager.mk [("s1", sampleSession "s1" 0)] 3600,
        [{ severity := "critical", functionName := "execute_system_command",
           arguments := [("command", "rm -rf /")],
           userQuestion := "please wipe the server" }]) :=
  dispatch_honeypot_refuses_and_preserves_state
    (SessionManager.mk [("s1", sampleSession "s1" 0)] 3600) 50
    (some (sampleSession "s1" 0)) "execute_system_command"
    [("command", "rm -rf /")] "please wipe the server" (by decide)

/-! ## C1: `request_clarification` stores the clarification text, not the
originating question -/

/-- C1 (code bug): dispatching `request_clarification` marks the bound
session as awaiting clarification and returns the clarification prompt, but
the session's `original_question` field receives the model-generated
`clarification_request` argument — not the originating question `q` passed
to the dispatch (which `handle_legitimate_call` never even receives).  Here
the two texts differ, exhibiting the divergence on a concrete input. -/
theorem request_clarification_stores_clarification_not_question :
    (lookupSession
        (dispatchToolCall (SessionManager.mk [("s1", sampleSession "s1" 100)] 3600)
          100 (some (sampleSession "s1" 100)) "request_clarification"
          [("clarification_request", "Could you specify which position you mean?"),
           ("reason", "unclear_question")]
          "What did the candidate do in 2019?").2.1.sessions "s1").map
        (fun s => (s.awaiting_clarification, s.original_question)) =
      some (true, some "Could you specify which position you mean?") ∧
    (dispatchToolCall (SessionManager.mk [("s1", sampleSession "s1" 100)] 3600)
          100 (some (sampleSession "s1" 100)) "request_clarification"
          [("clarification_request", "Could you specify which position you mean?"),
           ("reason", "unclear_question")]
          "What did the candidate do in 2019?").1 =
      "I need some clarification: Could you specify which position you mean?" ∧
    some "Could you specify which position you mean?" ≠
      some "What did the candidate do in 2019?" := by
  refine ⟨by decide, by decide, by decide⟩

/-! ## C10: mutating operations on a missing or expired id -/

/-- C10 (counterexample): `add_message` on an *expired* session id returns
`False` but does not leave the store unchanged — the expired entry is
removed by the embedded `get_session` lookup. -/
theorem add_message_expired_changes_store :
    (SessionManager.add_message
        (SessionManager.mk [("s1", sampleSession "s1" 0)] 3600)
        4000 "s1" "user" "hi" none).1 = false ∧
    (SessionManager.add_message
        (SessionManager.mk [("s1", sampleSession "s1" 0)] 3600)
        4000 "s1" "user" "hi" none).2.sessions ≠
      [("s1", sampleSession "s1" 0)] := by
  refine ⟨by decide, by decide⟩

/-- C10 (amended): on an id *not present* in the store, `add_message`,
`set_awaiting_clarification` and `clear_clarification_state` return `False`
and leave the store unchanged; on an id whose session has *expired*, they
return `False` and the only store change is the removal of that expired
entry — no session is created and no other session is modified. -/
theorem mutating_ops_missing_or_expired (m : SessionManager) (now : Nat)
    (sid role content q : String) (md : Option (List (String × String)))
    (ctx : List (String × String)) :
    (lookupSession m.sessions sid = none →
      m.add_message now sid role content md = (false, m) ∧
      m.set_awaiting_clarification now sid q ctx = (false, m) ∧
      m.clear_clarification_state now sid = (false, m)) ∧
    (∀ s, lookupSession m.sessions sid = some s →
      m.session_timeout < now - s.last_accessed →
      m.add_message now sid role content md =
        (false, { m with sessions := delSession m.sessions sid }) ∧
      m.set_awaiting_clarification now sid q ctx =
        (false, { m with sessions := delSession m.sessions sid }) ∧
      m.clear_clarification_state now sid =
        (false, { m with sessions := delSession m.sessions sid })) := by
  constructor
  · intro h
    refine ⟨?_, ?_, ?_⟩ <;>
      simp [SessionManager.add_message, SessionManager.set_awaiting_clarification,
        SessionManager.clear_clarification_state, SessionManager.get_session, h]
  · intro s hs hexp
    refine ⟨?_, ?_, ?_⟩ <;>
      simp [SessionManager.add_message, SessionManager.set_awaiting_clarification,
        SessionManager.clear_clarification_state, SessionManager.get_session,
        hs, hexp]

/-- Witness for C10's amended theorem: exercised on a store without the id
and on a store whose only session expired. -/
theorem mutating_ops_missing_or_expired_witness :
    SessionManager.add_message (SessionManager.mk [] 3600) 5 "nope" "user"
        "hi" none = (false, SessionManager.mk [] 3600) ∧
    SessionManager.clear_clarification_state
        (SessionManager.mk [("s1", sampleSession "s1" 0)] 3600) 4000 "s1" =
      (false, SessionManager.mk [] 3600) := by
  constructor
  · exact ((mutating_ops_missing_or_expired (SessionManager.mk [] 3600) 5
      "nope" "user" "hi" "q" none []).1 (by decide)).1
  · exact (((mutating_ops_missing_or_expired
      (SessionManager.mk [("s1", sampleSession "s1" 0)] 3600) 4000
      "s1" "user" "hi" "q" none []).2 (sampleSession "s1" 0) (by decide)
      (by decide)).2).2

/-! ## C7: the clarification invariant holds in every reachable state -/

theorem mem_removeKey {p : String × ConversationSession}
    {l : List (String × ConversationSession)} {sid : String}
    (h : p ∈ removeKey l sid) : p ∈ l := by
  induction l with
  | nil => simp [removeKey] at h
  | cons q rest ih =>
      obtain ⟨k, s⟩ := q
      by_cases hk : k = sid
      · rw [removeKey, if_pos hk] at h
        exact List.mem_cons_of_mem _ (ih h)
      · rw [removeKey, if_neg hk] at h
        rcases List.mem_cons.mp h with h | h
        · exact h ▸ List.mem_cons_self _ _
        · exact List.mem_cons_of_mem _ (ih h)

theorem all_removeKey {f : String × ConversationSession → Bool}
    {l : List (String × ConversationSession)} {sid : String}
    (h : ∀ p ∈ l, f p = true) : ∀ p ∈ removeKey l sid, f p = true :=
  fun p hp => h p (mem_removeKey hp)

theorem all_setSession {f : String × ConversationSession → Bool}
    {l : List (String × ConversationSession)} {sid : String}
    {s : ConversationSession} (h : ∀ p ∈ l, f p = true)
    (hs : f (sid, s) = true) : ∀ p ∈ setSession l sid s, f p = true := by
  intro p hp
  rcases List.mem_cons.mp hp with hp | hp
  · exact hp ▸ hs
  · exact all_removeKey h p hp

theorem clarInvB_eq_forall (m : SessionManager) :
    clarInvB m = true ↔ ∀ p ∈ m.sessions, clarPairB p = true := by
  simp [clarInvB, List.all_eq_true]

theorem clarInvB_get_session {m : SessionManager} (now : Nat) (sid : String)
    (h : clarInvB m = true) : clarInvB (m.get_session now sid).2 = true := by
  rw [clarInvB_eq_forall] at h ⊢
  unfold SessionManager.get_session
  cases hl : lookupSession m.sessions sid with
  | none => simpa using h
  | some s =>
      by_cases hexp : m.session_timeout < now - s.last_accessed
      · simp only [hexp, if_true]
        exact fun p hp => h p (mem_removeKey hp)
      · simp only [hexp, if_false]
        refine all_setSession h ?_
        have := h _ (lookupSession_mem m.sessions sid s hl)
        simpa [clarPairB] using this

theorem clarInvB_create {m : SessionManager} (sid : String) (now : Nat)
    (h : clarInvB m = true) : clarInvB (m.create_session sid now).2 = true := by
  rw [clarInvB_eq_forall] at h ⊢
  unfold SessionManager.create_session
  exact all_setSession h (by simp [clarPairB])

theorem get_session_some {m : SessionManager} {now : Nat} {sid : String}
    {s : ConversationSession} {m' : SessionManager}
    (h : m.get_session now sid = (some s, m')) :
    ∃ s0, lookupSession m.sessions sid = some s0 ∧
      s = { s0 with last_accessed := now } := by
  unfold SessionManager.get_session at h
  cases hl : lookupSession m.sessions sid with
  | none => rw [hl] at h; simp at h
  | some s0 =>
      rw [hl] at h
      by_cases hexp : m.session_timeout < now - s0.last_accessed
      · simp [hexp] at h
      · simp only [hexp, if_false, Prod.mk.injEq, Option.some.injEq] at h
        exact ⟨s0, rfl, h.1.symm⟩

theorem clarInvB_add_message {m : SessionManager} (now : Nat)
    (sid role content : String) (md : Option (List (String × String)))
    (h : clarInvB m = true) :
    clarInvB (m.add_message now sid role content md).2 = true := by
  have hget := clarInvB_get_session (m := m) now sid h
  rw [clarInvB_eq_forall] at h hget ⊢
  unfold SessionManager.add_message
  cases hg : m.get_session now sid with
  | mk os m' =>
      rw [hg] at hget
      cases os with
      | none => exact hget
      | some s =>
          obtain ⟨s0, hl, hs⟩ := get_session_some hg
          have hs0 := h _ (lookupSession_mem m.sessions sid s0 hl)
          refine all_setSession hget ?_
          subst hs
          simpa [clarPairB] using hs0

theorem clarInvB_set_awaiting {m : SessionManager} (now : Nat)
    (sid q : String) (ctx : List (String × String)) (h : clarInvB m = true) :
    clarInvB (m.set_awaiting_clarification now sid q ctx).2 = true := by
  have hget := clarInvB_get_session (m := m) now sid h
  rw [clarInvB_eq_forall] at hget ⊢
  unfold SessionManager.set_awaiting_clarification
  cases hg : m.get_session now sid with
  | mk os m' =>
      rw [hg] at hget
      cases os with
      | none => exact hget
      | some s => exact all_setSession hget (by simp [clarPairB])

theorem clarInvB_clear {m : SessionManager} (now : Nat) (sid : String)
    (h : clarInvB m = true) :
    clarInvB (m.clear_clarification_state now sid).2 = true := by
  have hget := clarInvB_get_session (m := m) now sid h
  rw [clarInvB_eq_forall] at hget ⊢
  unfold SessionManager.clear_clarification_state
  cases hg : m.get_session now sid with
  | mk os m' =>
      rw [hg] at hget
      cases os with
      | none => exact hget
      | some s => exact all_setSession hget (by simp [clarPairB])

theorem clarInvB_cleanup {m : SessionManager} (now : Nat)
    (h : clarInvB m = true) :
    clarInvB (m.cleanup_expired_sessions now) = true := by
  rw [clarInvB_eq_forall] at h ⊢
  unfold SessionManager.cleanup_expired_sessions
  intro p hp
  exact h p (List.mem_of_mem_filter hp)

/-- C7: in every session-manager state reachable by the public operations
(`create_session`, `get_session`, `add_message`,
`set_awaiting_clarification` with a string question,
`clear_clarification_state`, `cleanup_expired_sessions`), every stored
session satisfies `awaiting_clarification = true` iff `original_question`
is present. -/
theorem reachable_clarification_invariant (m : SessionManager)
    (h : Reachable m) : clarInvB m = true := by
  induction h with
  | init timeout => rfl
  | create sid now _ ih => exact clarInvB_create sid now ih
  | get now sid _ ih => exact clarInvB_get_session now sid ih
  | add now sid role content md _ ih =>
      exact clarInvB_add_message now sid role content md ih
  | setClar now sid q ctx _ ih => exact clarInvB_set_awaiting now sid q ctx ih
  | clearClar now sid _ ih => exact clarInvB_clear now sid ih
  | cleanup now _ ih => exact clarInvB_cleanup now ih

/-- Witness for C7: the invariant, via the theorem, on the concrete state
reached by create → set_awaiting_clarification → add_message. -/
theorem reachable_clarification_invariant_witness :
    clarInvB ((((SessionManager.mk [] 3600).create_session "s1"
        0).2.set_awaiting_clarification 1 "s1" "what role?"
        [("reason", "unclear_question")]).2.add_message 2 "s1" "assistant"
        "I need some clarification: what role?" none).2 = true :=
  reachable_clarification_invariant _
    (Reachable.add 2 "s1" "assistant"
      "I need some clarification: what role?" none
      (Reachable.setClar 1 "s1" "what role?" [("reason", "unclear_question")]
        (Reachable.create "s1" 0 (Reachable.init 3600))))

/-! ## C4: the clarification round trip -/

theorem removeKey_removeKey (l : List (String × ConversationSession))
    (sid : String) : removeKey (removeKey l sid) sid = removeKey l sid := by
  induction l with
  | nil => rfl
  | cons p rest ih =>
      obtain ⟨k, s⟩ := p
      by_cases hk : k = sid
      · simp [removeKey, hk, ih]
      · simp [removeKey, hk, ih]

theorem setSession_setSession (l : List (String × ConversationSession))
    (sid : String) (s1 s2 : ConversationSession) :
    setSession (setSession l sid s1) sid s2 = setSession l sid s2 := by
  simp [setSession, removeKey, removeKey_removeKey]

theorem set_awaiting_clarification_live {m : SessionManager} {now : Nat}
    {sid : String} {s0 : ConversationSession} (q : String)
    (ctx : List (String × String))
    (hlk : lookupSession m.sessions sid = some s0)
    (hfresh : now - s0.last_accessed ≤ m.session_timeout) :
    m.set_awaiting_clarification now sid q ctx =
      (true, setStore m sid (withClar s0 now q ctx)) := by
  simp [SessionManager.set_awaiting_clarification, SessionManager.get_session,
    hlk, Nat.not_lt.mpr hfresh, setStore, withClar, setSession_setSession]

theorem clear_clarification_state_live {m : SessionManager} {now : Nat}
    {sid : String} {s0 : ConversationSession}
    (hlk : lookupSession m.sessions sid = some s0)
    (hfresh : now - s0.last_accessed ≤ m.session_timeout) :
    m.clear_clarification_state now sid =
      (true, setStore m sid (withoutClar s0 now)) := by
  simp [SessionManager.clear_clarification_state, SessionManager.get_session,
    hlk, Nat.not_lt.mpr hfresh, setStore, withoutClar, setSession_setSession]

theorem add_message_live {m : SessionManager} {now : Nat} {sid : String}
    {s0 : ConversationSession} (role content : String)
    (md : Option (List (String × String)))
    (hlk : lookupSession m.sessions sid = some s0)
    (hfresh : now - s0.last_accessed ≤ m.session_timeout) :
    m.add_message now sid role content md =
      (true, setStore m sid (withMsg s0 now role content md)) := by
  simp [SessionManager.add_message, SessionManager.get_session,
    hlk, Nat.not_lt.mpr hfresh, setStore, withMsg, setSession_setSession]

theorem lookup_setStore_self (m : SessionManager) (sid : String)
    (s : ConversationSession) :
    lookupSession (setStore m sid s).sessions sid = some s :=
  lookupSession_setSession_self m.sessions sid s

theorem dispatchToolCall_legitimate (m : SessionManager) (now : Nat)
    (sArg : ConversationSession) (name : String)
    (args : List (String × String)) (q : String)
    (h1 : ¬ name ∈ honeypot_names) (h2 : name ∈ legitimate_names) :
    dispatchToolCall m now (some sArg) name args q =
      ((handle_legitimate_call m now name args (some sArg.session_id)).1,
       ((handle_legitimate_call m now name args
           (some sArg.session_id)).2.add_message now sArg.session_id
           "assistant"
           (handle_legitimate_call m now name args (some sArg.session_id)).1
           (some [("function_called", name)])).2,
       []) := by
  simp [dispatchToolCall, h1, h2]

theorem handle_legitimate_call_request_clarification (m : SessionManager)
    (now : Nat) (args : List (String × String)) (sid : String) :
    handle_legitimate_call m now "request_clarification" args (some sid) =
      ("I need some clarification: " ++ argGet args "clarification_request" "",
       (m.set_awaiting_clarification now sid
         (argGet args "clarification_request" "")
         [("reason", argGet args "reason" "unclear_question")]).2) := by
  unfold handle_legitimate_call
  rw [if_neg (by decide), if_pos rfl]

theorem handle_legitimate_call_clarification_response (m : SessionManager)
    (now : Nat) (args : List (String × String)) (sid : String) :
    handle_legitimate_call m now "handle_clarification_response" args
        (some sid) =
      (confidenceIndicator (argGet args "confidence" "medium") ++ " " ++
         argGet args "answer" "",
       (m.clear_clarification_state now sid).2) := by
  unfold handle_legitimate_call
  rw [if_neg (by decide), if_neg (by decide), if_pos rfl]

/-- C4: on a live session, dispatching `request_clarification` leaves the
session with `awaiting_clarification = true` and a present
`original_question`; a subsequent dispatch of
`handle_clarification_response` on the same session (within the timeout)
leaves it with `awaiting_clarification = false` and `original_question`
absent. -/
theorem clarification_round_trip (m : SessionManager) (now1 now2 : Nat)
    (sid : String) (s0 sArg sArg2 : ConversationSession)
    (args1 args2 : List (String × String)) (q1 q2 : String)
    (hlk : lookupSession m.sessions sid = some s0)
    (hfresh : now1 - s0.last_accessed ≤ m.session_timeout)
    (hsid : sArg.session_id = sid) (hsid2 : sArg2.session_id = sid)
    (hgap : now2 - now1 ≤ m.session_timeout) :
    ((lookupSession (dispatchToolCall m now1 (some sArg)
        "request_clarification" args1 q1).2.1.sessions sid).map
      (fun s => (s.awaiting_clarification, s.original_question.isSome)) =
      some (true, true)) ∧
    ((lookupSession (dispatchToolCall (dispatchToolCall m now1 (some sArg)
        "request_clarification" args1 q1).2.1 now2 (some sArg2)
        "handle_clarification_response" args2 q2).2.1.sessions sid).map
      (fun s => (s.awaiting_clarification, s.original_question)) =
      some (false, none)) := by
  -- the state after the first dispatch
  have e1 := dispatchToolCall_legitimate m now1 sArg "request_clarification"
    args1 q1 (by decide) (by decide)
  rw [hsid, handle_legitimate_call_request_clarification,
    set_awaiting_clarification_live _ _ hlk hfresh] at e1
  rw [add_message_live "assistant" _ _ (lookup_setStore_self m sid _)
    (by simp [setStore, withClar])] at e1
  -- the session stored after the first dispatch
  have hs1 : lookupSession (dispatchToolCall m now1 (some sArg)
      "request_clarification" args1 q1).2.1.sessions sid =
      some (withMsg (withClar s0 now1 (argGet args1 "clarification_request" "")
        [("reason", argGet args1 "reason" "unclear_question")]) now1
        "assistant"
        ("I need some clarification: " ++ argGet args1 "clarification_request" "")
        (some [("function_called", "request_clarification")])) := by
    rw [e1]
    exact lookup_setStore_self _ sid _
  refine ⟨?_, ?_⟩
  · rw [hs1]
    simp [withMsg, withClar]
  · -- the second dispatch
    have e2 := dispatchToolCall_legitimate
      (dispatchToolCall m now1 (some sArg)
        "request_clarification" args1 q1).2.1 now2 sArg2
      "handle_clarification_response" args2 q2 (by decide) (by decide)
    rw [hsid2, handle_legitimate_call_clarification_response,
      clear_clarification_state_live hs1 (by
        rw [e1]
        simp [setStore, withMsg, withClar]
        omega)] at e2
    rw [add_message_live "assistant" _ _ (lookup_setStore_self _ sid _)
      (by simp [setStore, withoutClar])] at e2
    rw [e2, lookup_setStore_self]
    simp [withMsg, withoutClar]

/-- Witness for C4: the round trip on a concrete live session. -/
theorem clarification_round_trip_witness :
    ((lookupSession (dispatchToolCall
        (SessionManager.mk [("s1", sampleSession "s1" 100)] 3600) 150
        (some (sampleSession "s1" 100)) "request_clarification"
        [("clarification_request", "which role?"), ("reason", "unclear_question")]
        "what did he do?").2.1.sessions "s1").map
      (fun s => (s.awaiting_clarification, s.original_question.isSome)) =
      some (true, true)) ∧
    ((lookupSession (dispatchToolCall (dispatchToolCall
        (SessionManager.mk [("s1", sampleSession "s1" 100)] 3600) 150
        (some (sampleSession "s1" 100)) "request_clarification"
        [("clarification_request", "which role?"), ("reason", "unclear_question")]
        "what did he do?").2.1 200 (some (sampleSession "s1" 100))
        "handle_clarification_response"
        [("answer", "He was a data engineer."), ("confidence", "high")]
        "the data engineer role").2.1.sessions "s1").map
      (fun s => (s.awaiting_clarification, s.original_question)) =
      some (false, none)) :=
  clarification_round_trip
    (SessionManager.mk [("s1", sampleSession "s1" 100)] 3600) 150 200 "s1"
    (sampleSession "s1" 100) (sampleSession "s1" 100) (sampleSession "s1" 100)
    [("clarification_request", "which role?"), ("reason", "unclear_question")]
    [("answer", "He was a data engineer."), ("confidence", "high")]
    "what did he do?" "the data engineer role"
    (by decide) (by decide) rfl rfl (by decide)

/-! ## C2: the `is_safe` verdict formula -/

/-- C2: for every non-blank text, `is_safe` holds iff the accumulated risk
score is at most 0.5 (5 tenths) AND the lower-cased text does not contain
both "ignore" and "instruction" AND it contains none of "system:", "user:",
"assistant:"; in particular any text whose lower-casing contains "system:"
is unsafe regardless of the additive score. -/
theorem detect_prompt_injection_is_safe_iff (t : String)
    (h : isBlank t.data = false) :
    ((detect_prompt_injection t).is_safe =
      (decide ((detect_prompt_injection t).risk_score_tenths ≤ 5) &&
       !(containsSub "ignore".data (pyLower t.data) &&
         containsSub "instruction".data (pyLower t.data)) &&
       !containsSub "system:".data (pyLower t.data) &&
       !containsSub "user:".data (pyLower t.data) &&
       !containsSub "assistant:".data (pyLower t.data))) ∧
    (containsSub "system:".data (pyLower t.data) = true →
      (detect_prompt_injection t).is_safe = false) := by
  constructor
  · simp only [detect_prompt_injection, h, Bool.false_eq_true, if_false,
      Bool.not_or, Bool.and_assoc]
  · intro hc
    simp [detect_prompt_injection, h, hc]

/-- Witness for C2 at the non-blank text "hello". -/
theorem detect_prompt_injection_is_safe_iff_witness :
    isBlank "hello".data = false ∧
    (((detect_prompt_injection "hello").is_safe =
      (decide ((detect_prompt_injection "hello").risk_score_tenths ≤ 5) &&
       !(containsSub "ignore".data (pyLower "hello".data) &&
         containsSub "instruction".data (pyLower "hello".data)) &&
       !containsSub "system:".data (pyLower "hello".data) &&
       !containsSub "user:".data (pyLower "hello".data) &&
       !containsSub "assistant:".data (pyLower "hello".data))) ∧
    (containsSub "system:".data (pyLower "hello".data) = true →
      (detect_prompt_injection "hello").is_safe = false)) :=
  ⟨by decide, detect_prompt_injection_is_safe_iff "hello" (by decide)⟩

/-! ## C5/C6: `sanitize_input` normal form, idempotence, output hygiene -/

theorem pySplitAux_good (cs : List Char) :
    ∀ acc : List Char, (∀ c ∈ acc, isPySpace c = false) →
    ∀ w ∈ pySplitAux cs acc, w ≠ [] ∧ ∀ c ∈ w, isPySpace c = false := by
  induction cs with
  | nil =>
      intro acc hacc w hw
      unfold pySplitAux at hw
      by_cases ha : acc = []
      · simp [ha] at hw
      · rw [if_neg ha] at hw
        rcases List.mem_singleton.mp hw with rfl
        refine ⟨by simpa using ha, ?_⟩
        intro c hc
        exact hacc c (List.mem_reverse.mp hc)
  | cons c rest ih =>
      intro acc hacc w hw
      unfold pySplitAux at hw
      by_cases hc : isPySpace c
      · rw [if_pos hc] at hw
        by_cases ha : acc = []
        · rw [if_pos ha] at hw
          exact ih [] (by simp) w hw
        · rw [if_neg ha] at hw
          rcases List.mem_cons.mp hw with rfl | hw
          · refine ⟨by simpa using ha, ?_⟩
            intro c hcw
            exact hacc c (List.mem_reverse.mp hcw)
          · exact ih [] (by simp) w hw
      · rw [if_neg hc] at hw
        refine ih (c :: acc) ?_ w hw
        intro d hd
        rcases List.mem_cons.mp hd with rfl | hd
        · exact Bool.eq_false_iff.mpr hc
        · exact hacc d hd

theorem pySplitAux_chars (cs : List Char) :
    ∀ acc w, w ∈ pySplitAux cs acc → ∀ c ∈ w, c ∈ cs ∨ c ∈ acc := by
  induction cs with
  | nil =>
      intro acc w hw c hcw
      unfold pySplitAux at hw
      by_cases ha : acc = []
      · simp [ha] at hw
      · rw [if_neg ha] at hw
        rcases List.mem_singleton.mp hw with rfl
        exact Or.inr (List.mem_reverse.mp hcw)
  | cons a rest ih =>
      intro acc w hw c hcw
      unfold pySplitAux at hw
      by_cases hsp : isPySpace a
      · rw [if_pos hsp] at hw
        by_cases ha : acc = []
        · rw [if_pos ha] at hw
          rcases ih [] w hw c hcw with h | h
          · exact Or.inl (List.mem_cons_of_mem _ h)
          · simp at h
        · rw [if_neg ha] at hw
          rcases List.mem_cons.mp hw with rfl | hw
          · exact Or.inr (List.mem_reverse.mp hcw)
          · rcases ih [] w hw c hcw with h | h
            · exact Or.inl (List.mem_cons_of_mem _ h)
            · simp at h
      · rw [if_neg hsp] at hw
        rcases ih (a :: acc) w hw c hcw with h | h
        · exact Or.inl (List.mem_cons_of_mem _ h)
        · rcases List.mem_cons.mp h with rfl | h
          · exact Or.inl (List.mem_cons_self _ _)
          · exact Or.inr h

theorem pySplit_good (cs : List Char) : goodWords (pySplit cs) := by
  intro w hw
  exact pySplitAux_good cs [] (by simp) w hw

theorem pySplit_chars (cs : List Char) :
    ∀ w ∈ pySplit cs, ∀ c ∈ w, c ∈ cs := by
  intro w hw c hc
  rcases pySplitAux_chars cs [] w hw c hc with h | h
  · exact h
  · simp at h

theorem pySplitAux_nil (acc : List Char) :
    pySplitAux [] acc = if acc = [] then [] else [acc.reverse] := rfl

theorem pySplitAux_cons (c : Char) (rest acc : List Char) :
    pySplitAux (c :: rest) acc =
      if isPySpace c then
        (if acc = [] then pySplitAux rest []
         else acc.reverse :: pySplitAux rest [])
      else pySplitAux rest (c :: acc) := rfl

theorem pySplitAux_append (w : List Char) :
    ∀ (acc : List Char), (∀ c ∈ w, isPySpace c = false) → ∀ rest,
    pySplitAux (w ++ rest) acc = pySplitAux rest (w.reverse ++ acc) := by
  induction w with
  | nil => intro acc _ rest; simp
  | cons a w' ih =>
      intro acc hw rest
      have ha : isPySpace a = false := hw a (List.mem_cons_self _ _)
      show pySplitAux (a :: (w' ++ rest)) acc = _
      rw [pySplitAux_cons, if_neg (by simp [ha]),
        ih (a :: acc) (fun c hc => hw c (List.mem_cons_of_mem _ hc)) rest]
      simp

theorem pySplit_joinWords (ws : List (List Char)) (h : goodWords ws) :
    pySplit (joinWords ws) = ws := by
  induction ws with
  | nil => rfl
  | cons w ws' ih =>
      obtain ⟨hne, hchars⟩ := h w (List.mem_cons_self _ _)
      have hgood' : goodWords ws' := fun x hx => h x (List.mem_cons_of_mem _ hx)
      cases ws' with
      | nil =>
          show pySplitAux (joinWords [w]) [] = [w]
          have hJ : joinWords [w] = w := rfl
          rw [hJ]
          have := pySplitAux_append w [] hchars []
          rw [List.append_nil] at this
          rw [this, pySplitAux_nil, if_neg (by simpa using hne)]
          simp
      | cons w2 rest =>
          show pySplitAux (joinWords (w :: w2 :: rest)) [] = _
          have hJ : joinWords (w :: w2 :: rest) =
              w ++ ' ' :: joinWords (w2 :: rest) := rfl
          rw [hJ, pySplitAux_append w [] hchars (' ' :: joinWords (w2 :: rest))]
          rw [List.append_nil, pySplitAux_cons, if_pos (by decide),
            if_neg (by simpa using hne), List.reverse_reverse]
          exact congrArg (w :: ·) (ih hgood')

theorem pyRstrip_nil : pyRstrip [] = [] := rfl

theorem pyRstrip_cons (c : Char) (rest : List Char) :
    pyRstrip (c :: rest) =
      if pyRstrip rest = [] && isPySpace c then [] else c :: pyRstrip rest :=
  rfl

theorem mem_pyRstrip {c : Char} : ∀ {cs : List Char},
    c ∈ pyRstrip cs → c ∈ cs := by
  intro cs
  induction cs with
  | nil => intro h; simp [pyRstrip_nil] at h
  | cons a rest ih =>
      intro h
      rw [pyRstrip_cons] at h
      split at h
      · simp at h
      · rcases List.mem_cons.mp h with rfl | h
        · exact List.mem_cons_self _ _
        · exact List.mem_cons_of_mem _ (ih h)

theorem pyRstrip_length_le : ∀ cs : List Char,
    (pyRstrip cs).length ≤ cs.length := by
  intro cs
  induction cs with
  | nil => simp [pyRstrip_nil]
  | cons a rest ih =>
      rw [pyRstrip_cons]
      by_cases hc : (pyRstrip rest = [] && isPySpace a) = true
      · rw [if_pos hc]; simp
      · rw [if_neg hc]
        simpa using Nat.succ_le_succ ih

theorem pyRstrip_of_no_space {cs : List Char}
    (h : ∀ c ∈ cs, isPySpace c = false) : pyRstrip cs = cs := by
  induction cs with
  | nil => rfl
  | cons a rest ih =>
      rw [pyRstrip_cons]
      have ha : isPySpace a = false := h a (List.mem_cons_self _ _)
      rw [if_neg (by simp [ha])]
      rw [ih (fun c hc => h c (List.mem_cons_of_mem _ hc))]

theorem pyRstrip_append_of_rstrip_nil {X : List Char}
    (hX : pyRstrip X = []) : ∀ w : List Char, pyRstrip (w ++ X) = pyRstrip w := by
  intro w
  induction w with
  | nil => simpa using hX
  | cons a w' ih =>
      show pyRstrip (a :: (w' ++ X)) = _
      rw [pyRstrip_cons, pyRstrip_cons, ih]

theorem pyRstrip_append_of_rstrip_ne_nil {X : List Char}
    (hX : pyRstrip X ≠ []) : ∀ w : List Char,
    pyRstrip (w ++ X) = w ++ pyRstrip X := by
  intro w
  induction w with
  | nil => simp
  | cons a w' ih =>
      show pyRstrip (a :: (w' ++ X)) = _
      rw [pyRstrip_cons, ih]
      rw [if_neg (by simp [hX])]
      rfl

theorem joinWords_ne_nil {ws : List (List Char)} (h : goodWords ws)
    (hne : ws ≠ []) : joinWords ws ≠ [] := by
  cases ws with
  | nil => exact absurd rfl hne
  | cons w ws' =>
      have hw := (h w (List.mem_cons_self _ _)).1
      cases ws' with
      | nil => simpa [joinWords] using hw
      | cons w2 rest =>
          show w ++ ' ' :: joinWords (w2 :: rest) ≠ []
          simp

theorem rstrip_take_joinWords {ws : List (List Char)} (h : goodWords ws) :
    ∀ m : Nat, ∃ ws', goodWords ws' ∧
      pyRstrip ((joinWords ws).take m) = joinWords ws' ∧
      (∀ w' ∈ ws', ∀ c ∈ w', ∃ w ∈ ws, c ∈ w) := by
  induction ws with
  | nil =>
      intro m
      exact ⟨[], by intro w hw; simp at hw, by simp [joinWords, pyRstrip_nil],
        by simp⟩
  | cons w ws' ih =>
      intro m
      obtain ⟨hne, hchars⟩ := h w (List.mem_cons_self _ _)
      have hgood' : goodWords ws' := fun x hx => h x (List.mem_cons_of_mem _ hx)
      have htakechars : ∀ c ∈ w.take m, isPySpace c = false :=
        fun c hc => hchars c (List.take_subset m w hc)
      cases ws' with
      | nil =>
          -- joinWords [w] = w
          have hJ : joinWords [w] = w := rfl
          rw [hJ]
          by_cases h0 : w.take m = []
          · exact ⟨[], by intro x hx; simp at hx,
              by rw [pyRstrip_of_no_space htakechars, h0]; rfl, by simp⟩
          · refine ⟨[w.take m], ?_, ?_, ?_⟩
            · intro x hx
              rcases List.mem_singleton.mp hx with rfl
              exact ⟨h0, htakechars⟩
            · rw [pyRstrip_of_no_space htakechars]; rfl
            · intro w' hw' c hc
              rcases List.mem_singleton.mp hw' with rfl
              exact ⟨w, List.mem_cons_self _ _, List.take_subset m w hc⟩
      | cons w2 rest =>
          have hJ : joinWords (w :: w2 :: rest) =
              w ++ ' ' :: joinWords (w2 :: rest) := rfl
          rw [hJ, List.take_append_eq_append_take]
          by_cases hm : m ≤ w.length
          · -- the cut falls inside `w`
            have h2 : (' ' :: joinWords (w2 :: rest)).take (m - w.length) = [] := by
              rw [Nat.sub_eq_zero_of_le hm]; rfl
            rw [h2, List.append_nil]
            by_cases h0 : w.take m = []
            · exact ⟨[], by intro x hx; simp at hx,
                by rw [pyRstrip_of_no_space htakechars, h0]; rfl, by simp⟩
            · refine ⟨[w.take m], ?_, ?_, ?_⟩
              · intro x hx
                rcases List.mem_singleton.mp hx with rfl
                exact ⟨h0, htakechars⟩
              · rw [pyRstrip_of_no_space htakechars]; rfl
              · intro w' hw' c hc
                rcases List.mem_singleton.mp hw' with rfl
                exact ⟨w, List.mem_cons_self _ _, List.take_subset m w hc⟩
          · -- the cut falls after `w`
            have hlt : w.length < m := Nat.lt_of_not_le hm
            have hw_take : w.take m = w := List.take_of_length_le (Nat.le_of_lt hlt)
            have hk : m - w.length = (m - w.length - 1) + 1 := by omega
            rw [hw_take, hk, List.take_succ_cons]
            obtain ⟨ws'', hgood'', heq'', hchars''⟩ := ih hgood' (m - w.length - 1)
            by_cases hT : pyRstrip ((joinWords (w2 :: rest)).take (m - w.length - 1)) = []
            · have hsp : pyRstrip (' ' :: (joinWords (w2 :: rest)).take (m - w.length - 1)) = [] := by
                rw [pyRstrip_cons, hT, if_pos (by decide)]
              rw [pyRstrip_append_of_rstrip_nil hsp w,
                pyRstrip_of_no_space hchars]
              refine ⟨[w], ?_, rfl, ?_⟩
              · intro x hx
                rcases List.mem_singleton.mp hx with rfl
                exact ⟨hne, hchars⟩
              · intro w' hw' c hc
                rcases List.mem_singleton.mp hw' with rfl
                exact ⟨_, List.mem_cons_self _ _, hc⟩
            · have hsp : pyRstrip (' ' :: (joinWords (w2 :: rest)).take (m - w.length - 1)) =
                  ' ' :: pyRstrip ((joinWords (w2 :: rest)).take (m - w.length - 1)) := by
                rw [pyRstrip_cons, if_neg (by simp [hT])]
              rw [pyRstrip_append_of_rstrip_ne_nil (by rw [hsp]; simp) w, hsp,
                heq'']
              have hws'' : ws'' ≠ [] := by
                intro hcon
                rw [hcon] at heq''
                exact hT (by simpa [joinWords] using heq'')
              refine ⟨w :: ws'', ?_, ?_, ?_⟩
              · intro x hx
                rcases List.mem_cons.mp hx with rfl | hx
                · exact ⟨hne, hchars⟩
                · exact hgood'' x hx
              · cases ws'' with
                | nil => exact absurd rfl hws''
                | cons a b => rfl
              · intro w' hw' c hc
                rcases List.mem_cons.mp hw' with rfl | hw'
                · exact ⟨_, List.mem_cons_self _ _, hc⟩
                · obtain ⟨x, hx, hcx⟩ := hchars'' w' hw' c hc
                  exact ⟨x, List.mem_cons_of_mem _ hx, hcx⟩

theorem mem_joinWords {c : Char} : ∀ {ws : List (List Char)},
    c ∈ joinWords ws → c = ' ' ∨ ∃ w ∈ ws, c ∈ w := by
  intro ws
  induction ws with
  | nil => intro h; simp [joinWords] at h
  | cons w ws' ih =>
      cases ws' with
      | nil =>
          intro h
          exact Or.inr ⟨w, List.mem_cons_self _ _, h⟩
      | cons w2 rest =>
          intro h
          have hJ : joinWords (w :: w2 :: rest) =
              w ++ ' ' :: joinWords (w2 :: rest) := rfl
          rw [hJ] at h
          rcases List.mem_append.mp h with h | h
          · exact Or.inr ⟨w, List.mem_cons_self _ _, h⟩
          · rcases List.mem_cons.mp h with rfl | h
            · exact Or.inl rfl
            · rcases ih h with h | ⟨x, hx, hcx⟩
              · exact Or.inl h
              · exact Or.inr ⟨x, List.mem_cons_of_mem _ hx, hcx⟩

theorem sanitize_input_nil (n : Option Nat) : sanitize_input [] n = [] := rfl

theorem sanitize_input_none (t : List Char) (ht : t ≠ []) :
    sanitize_input t none =
      joinWords (pySplit ((t.filter keepChar).filter
        (fun c => c ≠ '\x00'))) := by
  unfold sanitize_input
  rw [if_neg ht]

theorem sanitize_input_some (t : List Char) (m : Nat) (ht : t ≠ []) :
    sanitize_input t (some m) =
      (if m ≠ 0 && decide (m < (joinWords (pySplit ((t.filter keepChar).filter
            (fun c => c ≠ '\x00')))).length)
       then pyRstrip ((joinWords (pySplit ((t.filter keepChar).filter
            (fun c => c ≠ '\x00')))).take m)
       else joinWords (pySplit ((t.filter keepChar).filter
            (fun c => c ≠ '\x00')))) := by
  unfold sanitize_input
  rw [if_neg ht]

theorem sanitize_shape (t : List Char) (n : Option Nat) (ht : t ≠ []) :
    ∃ ws, goodWords ws ∧ sanitize_input t n = joinWords ws ∧
      (∀ c ∈ sanitize_input t n, keepChar c = true) ∧
      (∀ m, n = some m → m ≠ 0 → (sanitize_input t n).length ≤ m) := by
  have hmemt1 : ∀ c ∈ (t.filter keepChar).filter (fun c => c ≠ '\x00'),
      keepChar c = true := by
    intro c hc
    exact (List.mem_filter.mp (List.mem_filter.mp hc).1).2
  have hchars0 : ∀ c ∈ joinWords (pySplit ((t.filter keepChar).filter
      (fun c => c ≠ '\x00'))), keepChar c = true := by
    intro c hc
    rcases mem_joinWords hc with rfl | ⟨w, hw, hcw⟩
    · decide
    · exact hmemt1 c (pySplit_chars _ w hw c hcw)
  cases n with
  | none =>
      refine ⟨pySplit ((t.filter keepChar).filter (fun c => c ≠ '\x00')),
        pySplit_good _, sanitize_input_none t ht, ?_, ?_⟩
      · rw [sanitize_input_none t ht]
        exact hchars0
      · intro m hm
        cases hm
  | some m =>
      by_cases hcond : (m ≠ 0 && decide (m < (joinWords (pySplit
          ((t.filter keepChar).filter (fun c => c ≠ '\x00')))).length)) = true
      · obtain ⟨ws', hgood', heq', hchars'⟩ :=
          rstrip_take_joinWords (pySplit_good
            ((t.filter keepChar).filter (fun c => c ≠ '\x00'))) m
        have hsan : sanitize_input t (some m) =
            pyRstrip ((joinWords (pySplit ((t.filter keepChar).filter
              (fun c => c ≠ '\x00')))).take m) := by
          rw [sanitize_input_some t m ht, if_pos hcond]
        refine ⟨ws', hgood', by rw [hsan, heq'], ?_, ?_⟩
        · intro c hc
          rw [hsan] at hc
          exact hchars0 c (List.take_subset m _ (mem_pyRstrip hc))
        · intro m' hm' _
          cases hm'
          rw [hsan]
          calc (pyRstrip ((joinWords (pySplit ((t.filter keepChar).filter
                  (fun c => c ≠ '\x00')))).take m)).length
              ≤ ((joinWords (pySplit ((t.filter keepChar).filter
                  (fun c => c ≠ '\x00')))).take m).length :=
                pyRstrip_length_le _
            _ ≤ m := List.length_take_le _ _
      · have hsan : sanitize_input t (some m) =
            joinWords (pySplit ((t.filter keepChar).filter
              (fun c => c ≠ '\x00'))) := by
          rw [sanitize_input_some t m ht, if_neg hcond]
        refine ⟨pySplit ((t.filter keepChar).filter (fun c => c ≠ '\x00')),
          pySplit_good _, hsan, ?_, ?_⟩
        · rw [hsan]; exact hchars0
        · intro m' hm' hm0
          cases hm'
          rw [hsan]
          rw [Bool.and_eq_true, decide_eq_true_eq, decide_eq_true_eq] at hcond
          push_neg at hcond
          exact Nat.le_of_not_lt (by
            intro hlt
            exact absurd (hcond hm0) (by omega))

/-- C5: `sanitize_input` is idempotent for every text and every maximum
length (including `None` and the falsy `0`). -/
theorem sanitize_input_idempotent (t : List Char) (n : Option Nat) :
    sanitize_input (sanitize_input t n) n = sanitize_input t n := by
  by_cases ht : t = []
  · subst ht
    rw [sanitize_input_nil, sanitize_input_nil]
  obtain ⟨ws, hgood, heq, hchars, hlen⟩ := sanitize_shape t n ht
  by_cases hu0 : sanitize_input t n = []
  · rw [hu0, sanitize_input_nil]
  have hkeep : ∀ c ∈ sanitize_input t n, keepChar c = true := hchars
  have hfilter1 : (sanitize_input t n).filter keepChar = sanitize_input t n :=
    List.filter_eq_self.mpr hkeep
  have hnz : ∀ c ∈ sanitize_input t n,
      (fun c => decide (c ≠ '\x00')) c = true := by
    intro c hc
    have hk := hkeep c hc
    simp only [decide_eq_true_eq]
    intro hcon
    rw [hcon] at hk
    exact absurd hk (by decide)
  have hfilter2 : (sanitize_input t n).filter (fun c => c ≠ '\x00') =
      sanitize_input t n := List.filter_eq_self.mpr hnz
  have hsplitjoin : joinWords (pySplit (sanitize_input t n)) =
      sanitize_input t n := by
    rw [heq, pySplit_joinWords ws hgood]
  cases n with
  | none =>
      rw [sanitize_input_none _ hu0, hfilter1, hfilter2, hsplitjoin]
  | some m =>
      rw [sanitize_input_some _ m hu0, hfilter1, hfilter2, hsplitjoin]
      by_cases hm : m = 0
      · subst hm
        rw [if_neg (by simp)]
      · have hle : (sanitize_input t (some m)).length ≤ m := hlen m rfl hm
        rw [if_neg (by simp [Nat.not_lt.mpr hle])]

/-- C6 (counterexample): with `max_length = 0` (falsy in Python, so no
truncation happens) the length bound fails: `sanitize("hi", 0) = "hi"`. -/
theorem sanitize_length_bound_fails_at_zero :
    ¬ ((sanitize_input ['h', 'i'] (some 0)).length ≤ 0) := by decide

/-- C6 (amended): every character of `sanitize_input t n` with code point
below 32 is tab, LF or CR (in fact none occurs: whitespace is collapsed to
spaces), and for a *positive* maximum length `m` the output length is at
most `m` (`max_length = 0` is falsy in Python and disables truncation). -/
theorem sanitize_output_clean (t : List Char) (n : Option Nat) :
    (∀ c ∈ sanitize_input t n, c.toNat < 32 → c ∈ ['\t', '\n', '\r']) ∧
    (∀ m, n = some m → 1 ≤ m → (sanitize_input t n).length ≤ m) := by
  by_cases ht : t = []
  · subst ht
    constructor
    · intro c hc
      rw [sanitize_input_nil] at hc
      simp at hc
    · intro m _ _
      rw [sanitize_input_nil]
      simp
  obtain ⟨ws, hgood, heq, hchars, hlen⟩ := sanitize_shape t n ht
  constructor
  · intro c hc hlt
    have hk := hchars c hc
    rw [heq] at hc
    rcases mem_joinWords hc with rfl | ⟨w, hw, hcw⟩
    · exact absurd hlt (by decide)
    · have hns : isPySpace c = false := (hgood w hw).2 c hcw
      rw [keepChar, Bool.or_eq_true, decide_eq_true_eq] at hk
      rcases hk with hk | hk
      · omega
      · exfalso
        rw [decide_eq_true_eq] at hk
        simp only [List.mem_cons, List.not_mem_nil, or_false] at hk
        rcases hk with rfl | rfl | rfl | rfl <;> simp [isPySpace] at hns
  · intro m hm h1
    exact hlen m hm (by omega)

/-- Witness for C6's amended theorem at a concrete text and bound. -/
theorem sanitize_output_clean_witness :
    (∀ c ∈ sanitize_input ['h', 'i', '\t', 'x', '!'] (some 3),
      c.toNat < 32 → c ∈ ['\t', '\n', '\r']) ∧
    (sanitize_input ['h', 'i', '\t', 'x', '!'] (some 3)).length ≤ 3 :=
  ⟨(sanitize_output_clean ['h', 'i', '\t', 'x', '!'] (some 3)).1,
   (sanitize_output_clean ['h', 'i', '\t', 'x', '!'] (some 3)).2 3 rfl
     (by decide)⟩

end CvChat
